import Mathlib

/-!
Shallow embedding of the cross-window tab transfer protocol of the
WADSpaces browser shell (src/tabwidget.py, src/browserwindow.py,
src/dragtabbar.py, src/browser.py).

Content views (WebView objects) are identified by natural numbers;
Qt containers become lists; Python and Qt integer indices are Int.
GUI-only effects (painting, focus, raise, show) are not part of the
state; everything that touches tab bookkeeping is modelled.
-/

namespace WADS

set_option maxRecDepth 2000

/-- List insertion at a position, appending when the position is past the
end.  Mirrors how Qt containers place an element at an insertion index. -/
def listInsertAt {α : Type} (l : List α) (n : Nat) (a : α) : List α :=
  match n, l with
  | 0, l => a :: l
  | _ + 1, [] => [a]
  | n + 1, x :: xs => x :: listInsertAt xs n a

/-- Effective insertion position used by QStackedWidget.insertWidget and
QTabBar.insertTab: an out-of-range index appends (position `len`). -/
def clampInsert (len : Nat) (i : Int) : Nat :=
  if 0 ≤ i ∧ i ≤ (len : Int) then i.toNat else len

/-- Python list subscription `l[i]` with negative-index wraparound, under a
`try/except` that turns IndexError into `none`.  This is
`browser.windows()[src_window_index]` in DragTabBar.dropEvent and
`self._windows[index]` in Browser.lookup_window. -/
def pyListGet {α : Type} (l : List α) (i : Int) : Option α :=
  if 0 ≤ i then l[i.toNat]?
  else if 0 ≤ i + (l.length : Int) then l[(i + (l.length : Int)).toNat]?
  else none

/-- One visual tab entry of the DragTabBar (a QTabBar tab).  The `owner`
field is ghost state recording the id of the content view the entry was
created for; in the source the association is positional.  Icons are not
modelled. -/
structure Tab where
  owner : Nat
  title : String
deriving DecidableEq

/-- State of tabwidget.py's TabWidget: the DragTabBar's tab entries
(`bar`), the QStackedWidget's content views (`stack`, web view ids), and
the current index.  The tab bar's currentChanged signal keeps the stack's
current index equal to the bar's, so one `cur` field models both; `-1`
means no current tab. -/
structure TabWidget where
  bar : List Tab
  stack : List Nat
  cur : Int
deriving DecidableEq

namespace TabWidget

/-- TabWidget.count: `self._stack.count()`. -/
def count (tw : TabWidget) : Nat := tw.stack.length

/-- TabWidget.widget: `self._stack.widget(index)`; QStackedWidget.widget
returns null for an out-of-range index. -/
def widget (tw : TabWidget) (i : Int) : Option Nat :=
  if 0 ≤ i ∧ i < (tw.stack.length : Int) then tw.stack[i.toNat]? else none

/-- TabWidget.web_view: the widget at `index` when it is a WebView.  Every
widget this program stores in the stack is a WebView, so this is
`widget`. -/
def web_view (tw : TabWidget) (i : Int) : Option Nat := tw.widget i

/-- TabWidget.tabText: QTabBar.tabText, empty string when out of range. -/
def tabText (tw : TabWidget) (i : Int) : String :=
  if 0 ≤ i ∧ i < (tw.bar.length : Int) then
    match tw.bar[i.toNat]? with
    | some t => t.title
    | none => ""
  else ""

/-- TabWidget.currentIndex: `self._tabbar.currentIndex()`. -/
def currentIndex (tw : TabWidget) : Int := tw.cur

/-- TabWidget.setCurrentIndex: guarded by `0 <= index < self._stack.count()`,
then sets the bar's and the stack's current index. -/
def setCurrentIndex (tw : TabWidget) (i : Int) : TabWidget :=
  if 0 ≤ i ∧ i < (tw.stack.length : Int) then { tw with cur := i } else tw

/-- QTabBar.removeTab(i) acting on the bar and its current index: a no-op
when `i` is out of range; otherwise the entry is erased and the current
index follows Qt's default SelectRightTab policy. -/
def barRemoveAt (bar : List Tab) (cur : Int) (i : Int) : List Tab × Int :=
  if 0 ≤ i ∧ i < (bar.length : Int) then
    let bar2 := bar.eraseIdx i.toNat
    let cur2 :=
      if bar2.length = 0 then -1
      else if i < cur then cur - 1
      else if i = cur then min cur ((bar2.length : Int) - 1)
      else cur
    (bar2, cur2)
  else (bar, cur)

/-- QTabBar.insertTab(i, t) acting on the bar and its current index: the
position is clamped (out of range appends), the first tab becomes current,
and inserting at or before the current index shifts it up. -/
def barInsertAt (bar : List Tab) (cur : Int) (i : Int) (t : Tab) : List Tab × Int :=
  let p := clampInsert bar.length i
  let bar2 := listInsertAt bar p t
  let cur2 :=
    if bar2.length = 1 then (p : Int)
    else if (p : Int) ≤ cur then cur + 1
    else cur
  (bar2, cur2)

/-- TabWidget.addTab: `idx = self._tabbar.addTab(icon, title)` (append,
`idx` is the previous bar length) then `self._stack.insertWidget(idx, w)`.
The returned index is not modelled. -/
def addTab (tw : TabWidget) (w : Nat) (title : String) : TabWidget :=
  let idx : Int := (tw.bar.length : Int)
  let b := barInsertAt tw.bar tw.cur idx ⟨w, title⟩
  let stack2 := listInsertAt tw.stack (clampInsert tw.stack.length idx) w
  { bar := b.1, stack := stack2, cur := b.2 }

/-- TabWidget.insertTab: `self._stack.insertWidget(index, widget)` then
`self._tabbar.insertTab(index, icon, title)`. -/
def insertTab (tw : TabWidget) (i : Int) (w : Nat) (title : String) : TabWidget :=
  let stack2 := listInsertAt tw.stack (clampInsert tw.stack.length i) w
  let b := barInsertAt tw.bar tw.cur i ⟨w, title⟩
  { bar := b.1, stack := stack2, cur := b.2 }

/-- TabWidget.removeTab: `w = self._stack.widget(index)`, removeWidget when
found (QStackedWidget.removeWidget removes that widget object, i.e. its
first occurrence), then `self._tabbar.removeTab(index)`. -/
def removeTab (tw : TabWidget) (i : Int) : TabWidget :=
  let stack2 :=
    match tw.widget i with
    | some w => tw.stack.erase w
    | none => tw.stack
  let b := barRemoveAt tw.bar tw.cur i
  { bar := b.1, stack := stack2, cur := b.2 }

/-- TabWidget.moveTab: no-op when `from_index == to_index` or `from_index`
is out of `[0, count)` or no widget sits there; otherwise remove the widget
and bar entry at `from_index`, clamp `to_index` into `[0, new_count]`
(`0` when the strip became empty), reinsert both at the clamped position
and make it current.  The reinserted bar entry is recreated from the moved
tab's text (and icon), so its ghost owner is the moved widget. -/
def moveTab (tw : TabWidget) (fromI toI : Int) : TabWidget :=
  if fromI = toI then tw
  else if fromI < 0 ∨ (tw.count : Int) ≤ fromI then tw
  else
    match tw.widget fromI with
    | none => tw
    | some w =>
      let title := tw.tabText fromI
      let stack1 := tw.stack.erase w
      let b1 := barRemoveAt tw.bar tw.cur fromI
      let newCount := stack1.length
      let toI2 : Int := if 0 < newCount then max 0 (min toI (newCount : Int)) else 0
      let stack2 := listInsertAt stack1 (clampInsert stack1.length toI2) w
      let b2 := barInsertAt b1.1 b1.2 toI2 ⟨w, title⟩
      TabWidget.setCurrentIndex { bar := b2.1, stack := stack2, cur := b2.2 } toI2

/-- TabWidget.next_tab. -/
def next_tab (tw : TabWidget) : TabWidget :=
  let n := tw.currentIndex + 1
  let n2 := if n = (tw.count : Int) then 0 else n
  tw.setCurrentIndex n2

/-- TabWidget.previous_tab. -/
def previous_tab (tw : TabWidget) : TabWidget :=
  let n := tw.currentIndex - 1
  let n2 := if n < 0 then (tw.count : Int) - 1 else n
  tw.setCurrentIndex n2

end TabWidget

/-- The TabWidget invariant: the tab bar's entries and the stacked
content-view slots have the same length and are index-aligned — the map
equation says that for every position the view the tab entry was created
for sits at the same stack position. -/
def synced (tw : TabWidget) : Prop :=
  tw.bar.length = tw.stack.length ∧ tw.bar.map Tab.owner = tw.stack

instance (tw : TabWidget) : Decidable (synced tw) := by
  unfold synced
  infer_instance

/-- A BrowserWindow: identity, its TabWidget, its screen position, and the
per-window drag bookkeeping initialised in the constructor
(`_drag_seq_counter = 0`, `_drag_seq_accepted = -1`). -/
structure Window where
  id : Nat
  tw : TabWidget
  pos : Int × Int
  dragSeqCounter : Int
  dragSeqAccepted : Int
deriving DecidableEq

/-- BrowserWindow.mark_drag_seq_accepted. -/
def mark_drag_seq_accepted (w : Window) (seq : Int) : Window :=
  { w with dragSeqAccepted := seq }

/-- BrowserWindow.was_drag_seq_accepted. -/
def was_drag_seq_accepted (w : Window) (seq : Int) : Bool :=
  w.dragSeqAccepted == seq

/-- BrowserWindow.new_drag_seq: increment the counter and return it. -/
def new_drag_seq (w : Window) : Window × Int :=
  ({ w with dragSeqCounter := w.dragSeqCounter + 1 }, w.dragSeqCounter + 1)

/-- Browser._windows lookup by window identity (Python object identity is
modelled by the `id` field; the registry is expected to hold each window
at most once). -/
def getWin (reg : List Window) (wid : Nat) : Option Window :=
  reg.find? (fun w => w.id == wid)

/-- In-place mutation of the window object `wid` as seen through the
registry. -/
def setWin (reg : List Window) (wid : Nat) (f : Window → Window) : List Window :=
  reg.map (fun w => if w.id == wid then f w else w)

/-- BrowserWindow.closeEvent: `self._browser.windows().remove(self)` —
list.remove drops the first occurrence and a ValueError (absent window) is
swallowed. -/
def closeWindow (reg : List Window) (wid : Nat) : List Window :=
  reg.eraseP (fun w => w.id == wid)

/-- Observable used to state count conservation: the tab count of window
`wid` as seen through the registry, 0 when the window is gone. -/
def regTabCount (reg : List Window) (wid : Nat) : Nat :=
  ((getWin reg wid).map (fun w => w.tw.count)).getD 0

/-- BrowserWindow.receive_tab_from, addressed through the registry (`reg`):
the destination window `destId` pulls the tab at `srcIdx` out of the source
window `srcId` and inserts it at `dstIdx` clamped to
`[0, self._tab_widget.count()]`, makes it current, and closes the source
window when its strip became empty.  Returns the registry unchanged when
the source strip has no web view at `srcIdx`.  Focus restoration and
`view.show()` are display-only and not modelled. -/
def receive_tab_from (reg : List Window) (destId srcId : Nat)
    (srcIdx dstIdx : Int) : List Window :=
  match getWin reg srcId with
  | none => reg
  | some src =>
    match src.tw.web_view srcIdx with
    | none => reg
    | some view =>
      let txt := src.tw.tabText srcIdx
      let reg1 := setWin reg srcId (fun w => { w with tw := w.tw.removeTab srcIdx })
      let destCount : Nat := ((getWin reg1 destId).map (fun d => d.tw.count)).getD 0
      let dstIdx2 : Int := max 0 (min dstIdx (destCount : Int))
      let reg2 := setWin reg1 destId
        (fun w => { w with tw := w.tw.insertTab dstIdx2 view txt })
      let reg3 := setWin reg2 destId
        (fun w => { w with tw := w.tw.setCurrentIndex dstIdx2 })
      let srcCount : Nat := ((getWin reg3 srcId).map (fun s => s.tw.count)).getD 0
      if srcCount = 0 then closeWindow reg3 srcId else reg3

/-- BrowserWindow.detach_tab_to_new_window: with a single tab the window is
just moved to `global_pos - QPoint(60, 20)`; otherwise the tab at
`fromI` is removed, `Browser.create_hidden_window` appends a fresh window
(empty strip, counter 0, accepted -1), the detached view is added to it as
its only tab and the new window is moved to `global_pos - QPoint(60, 20)`.
Returns `none` where the source raises (with two or more tabs and no web
view at `fromI`, `view.hasFocus()` dereferences None). -/
def detach_tab_to_new_window (reg : List Window) (wid : Nat) (fromI : Int)
    (globalPos : Int × Int) (freshId : Nat) : Option (List Window) :=
  match getWin reg wid with
  | none => some reg
  | some w =>
    if w.tw.count = 1 then
      some (setWin reg wid
        (fun x => { x with pos := (globalPos.1 - 60, globalPos.2 - 20) }))
    else
      match w.tw.web_view fromI with
      | none => none
      | some view =>
        let txt := w.tw.tabText fromI
        let reg1 := setWin reg wid (fun x => { x with tw := x.tw.removeTab fromI })
        let child : Window := ⟨freshId, ⟨[], [], -1⟩, (0, 0), 0, -1⟩
        let reg2 := reg1 ++ [child]
        let reg3 := setWin reg2 freshId
          (fun x => { x with tw := x.tw.addTab view txt })
        let reg4 := setWin reg3 freshId
          (fun x => { x with pos := (globalPos.1 - 60, globalPos.2 - 20) })
        some reg4

/-- End of DragTabBar.mouseMoveEvent, after `drag.exec` returns: when no
drop target marked this drag's sequence number accepted on the originating
window, the tab at the drag start index is detached at the release pointer
position. -/
def dragEnd (reg : List Window) (wid : Nat) (dragIdx seq : Int)
    (releasePos : Int × Int) (freshId : Nat) : Option (List Window) :=
  match getWin reg wid with
  | none => some reg
  | some w =>
    if was_drag_seq_accepted w seq then some reg
    else detach_tab_to_new_window reg wid dragIdx releasePos freshId

/-- The decoded transfer payload written at drag start:
`{"src_window_index": ..., "src_index": ..., "seq": ...}`. -/
structure Payload where
  srcWindowIndex : Int
  srcIndex : Int
  seq : Int
deriving DecidableEq

/-- DragTabBar.dropEvent for a payload of this protocol, after the
destination index has been computed from the pointer position
(`dst_index = self._compute_dst_index(pos)`, passed here as
`dstIndexRaw`).  `destId` is the window owning the tab bar the drop landed
on.  Same-window drops adjust the destination index for the removal shift,
move the tab and mark acceptance on this window; cross-window drops look
the source window up by its payload index (Python list subscription) and,
when it resolves, pull the tab over and mark acceptance on the source
window; otherwise the event is ignored. -/
def dropEvent (reg : List Window) (destId : Nat) (p : Payload)
    (dstIndexRaw : Int) : List Window :=
  let thisWindowIndex : Int :=
    ((reg.findIdx? (fun w => w.id == destId)).map Int.ofNat).getD (-1)
  if p.srcWindowIndex = thisWindowIndex then
    let d := if dstIndexRaw > p.srcIndex then dstIndexRaw - 1 else dstIndexRaw
    let reg1 := setWin reg destId
      (fun w => { w with tw := w.tw.moveTab p.srcIndex (max 0 d) })
    setWin reg1 destId (fun w => mark_drag_seq_accepted w p.seq)
  else
    match pyListGet reg p.srcWindowIndex with
    | none => reg
    | some srcW =>
      let reg1 := receive_tab_from reg destId srcW.id p.srcIndex dstIndexRaw
      setWin reg1 srcW.id (fun w => mark_drag_seq_accepted w p.seq)

/-! ### Helper lemmas about list insertion and erasure -/

theorem length_listInsertAt {α : Type} (l : List α) (n : Nat) (a : α) :
    (listInsertAt l n a).length = l.length + 1 := by
  induction l generalizing n with
  | nil => cases n <;> simp [listInsertAt]
  | cons x xs ih =>
    cases n with
    | zero => simp [listInsertAt]
    | succ m => simp [listInsertAt, ih]

theorem getElem?_listInsertAt_self {α : Type} (l : List α) (n : Nat) (a : α)
    (h : n ≤ l.length) : (listInsertAt l n a)[n]? = some a := by
  induction n generalizing l with
  | zero => cases l <;> simp [listInsertAt]
  | succ m ih =>
    cases l with
    | nil => simp at h
    | cons x xs =>
      simp only [listInsertAt, List.getElem?_cons_succ]
      exact ih xs (by simpa using h)

theorem perm_listInsertAt {α : Type} (l : List α) (n : Nat) (a : α) :
    (listInsertAt l n a).Perm (a :: l) := by
  induction l generalizing n with
  | nil => cases n <;> simp [listInsertAt]
  | cons x xs ih =>
    cases n with
    | zero => simp [listInsertAt]
    | succ m =>
      simp only [listInsertAt]
      exact ((ih m).cons x).trans (List.Perm.swap a x xs)

theorem map_listInsertAt {α β : Type} (f : α → β) (l : List α) (n : Nat) (a : α) :
    (listInsertAt l n a).map f = listInsertAt (l.map f) n (f a) := by
  induction l generalizing n with
  | nil => cases n <;> simp [listInsertAt]
  | cons x xs ih =>
    cases n with
    | zero => simp [listInsertAt]
    | succ m => simp [listInsertAt, ih]

theorem listInsertAt_of_length_le {α : Type} (l : List α) (n : Nat) (a : α)
    (h : l.length ≤ n) : listInsertAt l n a = l ++ [a] := by
  induction l generalizing n with
  | nil => cases n <;> simp [listInsertAt]
  | cons x xs ih =>
    cases n with
    | zero => simp at h
    | succ m => simp [listInsertAt, ih m (by simpa using h)]

theorem mem_of_getElem?_some {α : Type} {l : List α} {n : Nat} {a : α}
    (h : l[n]? = some a) : a ∈ l := by
  induction l generalizing n with
  | nil => simp at h
  | cons x xs ih =>
    cases n with
    | zero => simp at h; simp [h]
    | succ m =>
      simp only [List.getElem?_cons_succ] at h
      exact List.mem_cons_of_mem x (ih h)

theorem erase_listInsertAt {α : Type} [BEq α] [LawfulBEq α]
    (l : List α) (n : Nat) (a : α) (h : a ∉ l) :
    (listInsertAt l n a).erase a = l := by
  induction l generalizing n with
  | nil => cases n <;> simp [listInsertAt]
  | cons x xs ih =>
    have hxa : ¬(x == a) := by
      simp only [List.mem_cons, not_or] at h
      simp [beq_iff_eq]
      exact fun e => h.1 e.symm
    cases n with
    | zero => simp [listInsertAt, List.erase_cons]
    | succ m =>
      simp only [listInsertAt, List.erase_cons, hxa]
      simp only [List.mem_cons, not_or] at h
      simp [ih m h.2, hxa]

theorem erase_eq_eraseIdx_of_nodup {α : Type} [BEq α] [LawfulBEq α]
    (l : List α) (n : Nat) (a : α) (hnd : l.Nodup) (h : l[n]? = some a) :
    l.erase a = l.eraseIdx n := by
  induction l generalizing n with
  | nil => simp at h
  | cons x xs ih =>
    cases n with
    | zero =>
      simp only [List.getElem?_cons_zero, Option.some.injEq] at h
      subst h
      simp [List.erase_cons]
    | succ m =>
      simp only [List.getElem?_cons_succ] at h
      have hmem : a ∈ xs := mem_of_getElem?_some h
      have hx : x ∉ xs := (List.nodup_cons.mp hnd).1
      have hne : ¬(x == a) := by
        simp [beq_iff_eq]
        exact fun e => hx (e ▸ hmem)
      simp only [List.erase_cons, hne, if_neg, List.eraseIdx_cons_succ]
      simp [ih m (List.nodup_cons.mp hnd).2 h, hne]

/-! ### Helper lemmas about the window registry -/

theorem getWin_id_of_some {reg : List Window} {wid : Nat} {w : Window}
    (h : getWin reg wid = some w) : w.id = wid := by
  have := List.find?_some h
  simpa [beq_iff_eq] using this

theorem mem_id_of_getWin_some {reg : List Window} {wid : Nat} {w : Window}
    (h : getWin reg wid = some w) : wid ∈ reg.map Window.id := by
  have hm : w ∈ reg := List.mem_of_find?_eq_some h
  have hid := getWin_id_of_some h
  exact hid ▸ List.mem_map_of_mem Window.id hm

theorem find?_map_of_pred_eq {α : Type} (p : α → Bool) (u : α → α)
    (h : ∀ a, p (u a) = p a) (l : List α) :
    List.find? p (l.map u) = (List.find? p l).map u := by
  induction l with
  | nil => rfl
  | cons x xs ih =>
    simp only [List.map_cons, List.find?_cons, h x]
    cases hx : p x with
    | true => rfl
    | false => exact ih

theorem getWin_setWin (reg : List Window) (wid j : Nat) (f : Window → Window)
    (hf : ∀ w, (f w).id = w.id) :
    getWin (setWin reg wid f) j
      = (getWin reg j).map (fun w => if w.id == wid then f w else w) := by
  unfold getWin setWin
  refine find?_map_of_pred_eq _ _ (fun a => ?_) reg
  by_cases h : a.id = wid
  · simp [h, hf a]
  · simp [h]

theorem getWin_setWin_self (reg : List Window) (wid : Nat) (f : Window → Window)
    (hf : ∀ w, (f w).id = w.id) :
    getWin (setWin reg wid f) wid = (getWin reg wid).map f := by
  rw [getWin_setWin reg wid wid f hf]
  cases hw : getWin reg wid with
  | none => rfl
  | some w =>
    have hid : w.id = wid := getWin_id_of_some hw
    simp [hid]

theorem getWin_setWin_ne (reg : List Window) (wid j : Nat) (f : Window → Window)
    (hf : ∀ w, (f w).id = w.id) (hne : j ≠ wid) :
    getWin (setWin reg wid f) j = getWin reg j := by
  rw [getWin_setWin reg wid j f hf]
  cases hw : getWin reg j with
  | none => rfl
  | some w =>
    have hid : w.id = j := getWin_id_of_some hw
    have : ¬(w.id = wid) := by rw [hid]; exact hne
    simp [this]

theorem map_setWin (reg : List Window) (wid : Nat) (f : Window → Window)
    {β : Type} (g : Window → β) (hg : ∀ w, g (f w) = g w) :
    (setWin reg wid f).map g = reg.map g := by
  induction reg with
  | nil => rfl
  | cons x xs ih =>
    simp only [setWin, List.map_cons] at ih ⊢
    by_cases hx : x.id = wid
    · rw [if_pos (by simp [hx]), hg x, ih]
    · rw [if_neg (by simp [hx]), ih]

theorem length_setWin (reg : List Window) (wid : Nat) (f : Window → Window) :
    (setWin reg wid f).length = reg.length := by
  simp [setWin]

theorem getWin_append_left {reg : List Window} {wid : Nat} {w : Window}
    (l2 : List Window) (h : getWin reg wid = some w) :
    getWin (reg ++ l2) wid = some w := by
  simp only [getWin] at h ⊢
  rw [List.find?_append, h]
  rfl

theorem getWin_append_right {reg : List Window} {wid : Nat}
    (l2 : List Window) (h : wid ∉ reg.map Window.id) :
    getWin (reg ++ l2) wid = getWin l2 wid := by
  induction reg with
  | nil => rfl
  | cons x xs ih =>
    simp only [List.map_cons, List.mem_cons, not_or] at h
    have hb : (x.id == wid) = false := by
      simp [beq_iff_eq]
      exact fun e => h.1 e.symm
    simp only [getWin, List.cons_append, List.find?_cons, hb]
    exact ih h.2

theorem notMem_id_closeWindow {reg : List Window} {wid : Nat}
    (hnd : (reg.map Window.id).Nodup) :
    wid ∉ (closeWindow reg wid).map Window.id := by
  induction reg with
  | nil => simp [closeWindow]
  | cons x xs ih =>
    simp only [List.map_cons, List.nodup_cons] at hnd
    by_cases hx : x.id = wid
    · have hb : (x.id == wid) = true := by simp [hx]
      simp only [closeWindow, List.eraseP_cons, hb, cond_true]
      rw [← hx]
      exact hnd.1
    · have hb : (x.id == wid) = false := by simp [hx]
      simp only [closeWindow, List.eraseP_cons, hb, cond_false, List.map_cons,
        List.mem_cons, not_or]
      exact ⟨fun e => hx e.symm, ih hnd.2⟩

/-! ### Small facts about TabWidget operations -/

@[simp] theorem setCurrentIndex_stack (tw : TabWidget) (i : Int) :
    (tw.setCurrentIndex i).stack = tw.stack := by
  unfold TabWidget.setCurrentIndex
  split <;> rfl

@[simp] theorem setCurrentIndex_bar (tw : TabWidget) (i : Int) :
    (tw.setCurrentIndex i).bar = tw.bar := by
  unfold TabWidget.setCurrentIndex
  split <;> rfl

theorem setCurrentIndex_of_valid (tw : TabWidget) (i : Int)
    (h0 : 0 ≤ i) (h1 : i < (tw.count : Int)) :
    tw.setCurrentIndex i = { tw with cur := i } := by
  unfold TabWidget.setCurrentIndex
  rw [if_pos ⟨h0, h1⟩]

theorem map_eraseIdx {α β : Type} (g : α → β) (l : List α) (n : Nat) :
    (l.eraseIdx n).map g = (l.map g).eraseIdx n := by
  induction l generalizing n with
  | nil => simp
  | cons x xs ih =>
    cases n with
    | zero => simp
    | succ m => simp [List.eraseIdx_cons_succ, ih]

/-- TabWidget.addTab is insertTab at the end of the bar. -/
theorem addTab_eq_insertTab (tw : TabWidget) (w : Nat) (title : String) :
    tw.addTab w title = tw.insertTab (tw.bar.length : Int) w title := rfl

theorem getWin_closeWindow_ne (reg : List Window) (wid j : Nat) (hne : j ≠ wid) :
    getWin (closeWindow reg wid) j = getWin reg j := by
  induction reg with
  | nil => rfl
  | cons x xs ih =>
    by_cases hx : x.id = wid
    · have hb : (x.id == wid) = true := by simp [hx]
      have hj : (x.id == j) = false := by
        rw [hx]
        exact beq_eq_false_iff_ne.mpr (fun e => hne e.symm)
      simp only [closeWindow, List.eraseP_cons, hb, cond_true, getWin,
        List.find?_cons, hj]
    · have hb : (x.id == wid) = false := by simp [hx]
      simp only [closeWindow, List.eraseP_cons, hb, cond_false, getWin,
        List.find?_cons]
      cases hj2 : (x.id == j) with
      | true => rfl
      | false => exact ih

theorem getWin_eq_none_of_notMem {reg : List Window} {wid : Nat}
    (h : wid ∉ reg.map Window.id) : getWin reg wid = none := by
  induction reg with
  | nil => rfl
  | cons x xs ih =>
    simp only [List.map_cons, List.mem_cons, not_or] at h
    have hb : (x.id == wid) = false := by
      simp only [beq_eq_false_iff_ne]
      exact fun e => h.1 e.symm
    simp only [getWin, List.find?_cons, hb]
    exact ih h.2

theorem web_view_inv (tw : TabWidget) (i : Int) (v : Nat)
    (hv : tw.web_view i = some v) :
    (0 ≤ i ∧ i < (tw.stack.length : Int)) ∧ tw.stack[i.toNat]? = some v := by
  unfold TabWidget.web_view TabWidget.widget at hv
  by_cases h : 0 ≤ i ∧ i < (tw.stack.length : Int)
  · rw [if_pos h] at hv
    exact ⟨h, hv⟩
  · rw [if_neg h] at hv
    exact absurd hv (by simp)

theorem removeTab_stack_of_web_view (tw : TabWidget) (i : Int) (v : Nat)
    (hv : tw.web_view i = some v) :
    (tw.removeTab i).stack = tw.stack.erase v := by
  have hwid : tw.widget i = some v := hv
  simp only [TabWidget.removeTab, hwid]

theorem removeTab_count_of_web_view (tw : TabWidget) (i : Int) (v : Nat)
    (hv : tw.web_view i = some v) :
    (tw.removeTab i).count = tw.count - 1 := by
  obtain ⟨hr, hval⟩ := web_view_inv tw i v hv
  unfold TabWidget.count
  rw [removeTab_stack_of_web_view tw i v hv]
  exact List.length_erase_of_mem (mem_of_getElem?_some hval)

theorem count_pos_of_web_view (tw : TabWidget) (i : Int) (v : Nat)
    (hv : tw.web_view i = some v) : 0 < tw.count := by
  obtain ⟨⟨h0, h1⟩, _⟩ := web_view_inv tw i v hv
  unfold TabWidget.count
  omega

/-- Fully-resolved form of `receive_tab_from` for a live, distinct source
and destination and a valid source tab. -/
theorem receive_tab_from_eq (reg : List Window) (destId srcId : Nat)
    (srcIdx dstIdx : Int) (dest src : Window) (v : Nat)
    (hne : destId ≠ srcId)
    (hdest : getWin reg destId = some dest)
    (hsrc : getWin reg srcId = some src)
    (hv : src.tw.web_view srcIdx = some v) :
    receive_tab_from reg destId srcId srcIdx dstIdx
      = (if (src.tw.removeTab srcIdx).count = 0
         then closeWindow (setWin (setWin (setWin reg srcId
                (fun w => { w with tw := w.tw.removeTab srcIdx })) destId
                (fun w => { w with tw := w.tw.insertTab (max 0 (min dstIdx (dest.tw.count : Int))) v (src.tw.tabText srcIdx) })) destId
                (fun w => { w with tw := w.tw.setCurrentIndex (max 0 (min dstIdx (dest.tw.count : Int))) })) srcId
         else setWin (setWin (setWin reg srcId
                (fun w => { w with tw := w.tw.removeTab srcIdx })) destId
                (fun w => { w with tw := w.tw.insertTab (max 0 (min dstIdx (dest.tw.count : Int))) v (src.tw.tabText srcIdx) })) destId
                (fun w => { w with tw := w.tw.setCurrentIndex (max 0 (min dstIdx (dest.tw.count : Int))) })) := by
  unfold receive_tab_from
  rw [hsrc]
  simp only [hv]
  rw [getWin_setWin_ne reg srcId destId
        (fun w => { w with tw := w.tw.removeTab srcIdx }) (fun w => rfl) hne,
      hdest]
  simp only [Option.map_some', Option.getD_some]
  rw [getWin_setWin_ne _ destId srcId
        (fun w => { w with tw := w.tw.setCurrentIndex (max 0 (min dstIdx (dest.tw.count : Int))) })
        (fun w => rfl) (Ne.symm hne),
      getWin_setWin_ne _ destId srcId
        (fun w => { w with tw := w.tw.insertTab (max 0 (min dstIdx (dest.tw.count : Int))) v (src.tw.tabText srcIdx) })
        (fun w => rfl) (Ne.symm hne),
      getWin_setWin_self _ srcId
        (fun w => { w with tw := w.tw.removeTab srcIdx }) (fun w => rfl),
      hsrc]
  simp only [Option.map_some', Option.getD_some]

/-! ### Claim theorems -/

/-- Claim C3: a drop landing on the window that originated the drag
(payload source window index resolving to this window's registry index)
decrements the pointer-derived destination index by one exactly when it
exceeds the source tab index, applies the strip's move with the source
index and the adjusted, clamped-non-negative destination index, and sets
the originating window's acceptance flag to the session's sequence
number. -/
theorem dropEvent_same_window_reorder (reg : List Window) (destId : Nat)
    (p : Payload) (dst : Int) (n : Nat) (dest : Window)
    (hidx : reg.findIdx? (fun w => w.id == destId) = some n)
    (hsw : p.srcWindowIndex = (n : Int))
    (hdest : getWin reg destId = some dest) :
    (getWin (dropEvent reg destId p dst) destId).map (fun w => w.tw)
        = some (dest.tw.moveTab p.srcIndex
            (max 0 (if dst > p.srcIndex then dst - 1 else dst)))
  ∧ (getWin (dropEvent reg destId p dst) destId).map (fun w => w.dragSeqAccepted)
        = some p.seq := by
  have hdrop : dropEvent reg destId p dst
      = setWin (setWin reg destId
          (fun w => { w with tw := w.tw.moveTab p.srcIndex (max 0 (if dst > p.srcIndex then dst - 1 else dst)) }))
          destId (fun w => mark_drag_seq_accepted w p.seq) := by
    unfold dropEvent
    rw [hidx]
    simp only [Option.map_some', Option.getD_some]
    rw [if_pos (show p.srcWindowIndex = Int.ofNat n from by rw [hsw]; rfl)]
  rw [hdrop,
    getWin_setWin_self _ destId (fun w => mark_drag_seq_accepted w p.seq) (fun w => rfl),
    getWin_setWin_self _ destId
      (fun w => { w with tw := w.tw.moveTab p.srcIndex (max 0 (if dst > p.srcIndex then dst - 1 else dst)) })
      (fun w => rfl),
    hdest]
  exact ⟨rfl, rfl⟩

/-- Claim C3 witness: a registered single-window registry; dropping tab 0
onto position 2 of its own strip. -/
theorem dropEvent_same_window_reorder_witness :
    (List.findIdx? (fun w => w.id == 5)
        [(⟨5, ⟨[⟨10, ""⟩, ⟨11, ""⟩, ⟨12, ""⟩], [10, 11, 12], 0⟩, (0, 0), 1, -1⟩ : Window)]
        = some 0
      ∧ (Payload.mk 0 0 9).srcWindowIndex = ((0 : Nat) : Int)
      ∧ getWin [(⟨5, ⟨[⟨10, ""⟩, ⟨11, ""⟩, ⟨12, ""⟩], [10, 11, 12], 0⟩, (0, 0), 1, -1⟩ : Window)] 5
        = some ⟨5, ⟨[⟨10, ""⟩, ⟨11, ""⟩, ⟨12, ""⟩], [10, 11, 12], 0⟩, (0, 0), 1, -1⟩)
  ∧ ((getWin (dropEvent
        [(⟨5, ⟨[⟨10, ""⟩, ⟨11, ""⟩, ⟨12, ""⟩], [10, 11, 12], 0⟩, (0, 0), 1, -1⟩ : Window)]
        5 ⟨0, 0, 9⟩ 2) 5).map (fun w => w.tw)
      = some (TabWidget.moveTab ⟨[⟨10, ""⟩, ⟨11, ""⟩, ⟨12, ""⟩], [10, 11, 12], 0⟩ 0
          (max 0 (if (2 : Int) > 0 then 2 - 1 else 2)))
    ∧ (getWin (dropEvent
        [(⟨5, ⟨[⟨10, ""⟩, ⟨11, ""⟩, ⟨12, ""⟩], [10, 11, 12], 0⟩, (0, 0), 1, -1⟩ : Window)]
        5 ⟨0, 0, 9⟩ 2) 5).map (fun w => w.dragSeqAccepted)
      = some 9) :=
  ⟨⟨by decide, by decide, by decide⟩,
   dropEvent_same_window_reorder
     [⟨5, ⟨[⟨10, ""⟩, ⟨11, ""⟩, ⟨12, ""⟩], [10, 11, 12], 0⟩, (0, 0), 1, -1⟩]
     5 ⟨0, 0, 9⟩ 2 0
     ⟨5, ⟨[⟨10, ""⟩, ⟨11, ""⟩, ⟨12, ""⟩], [10, 11, 12], 0⟩, (0, 0), 1, -1⟩
     (by decide) (by decide) (by decide)⟩

/-- Claim C7 refutation: a transfer payload carrying the defensive source
window index -1 is not inert.  Python list subscription resolves -1 to the
last registered window, so dropping `src_window_index = -1, src_index = 0`
on window 0 of a two-window registry pulls the last window's first tab
into window 0, mutates both tab collections and marks the drag accepted —
the claim requires the drop to be ignored with no mutation. -/
theorem dropEvent_negative_index_mutates :
    (getWin (dropEvent
        [⟨0, ⟨[⟨10, ""⟩], [10], 0⟩, (0, 0), 0, -1⟩,
         ⟨1, ⟨[⟨20, ""⟩, ⟨21, ""⟩], [20, 21], 0⟩, (0, 0), 0, -1⟩]
        0 ⟨-1, 0, 5⟩ 0) 1).map (fun w => w.tw.stack) = some [21]
  ∧ (getWin (dropEvent
        [⟨0, ⟨[⟨10, ""⟩], [10], 0⟩, (0, 0), 0, -1⟩,
         ⟨1, ⟨[⟨20, ""⟩, ⟨21, ""⟩], [20, 21], 0⟩, (0, 0), 0, -1⟩]
        0 ⟨-1, 0, 5⟩ 0) 0).map (fun w => w.tw.stack) = some [20, 10]
  ∧ (getWin (dropEvent
        [⟨0, ⟨[⟨10, ""⟩], [10], 0⟩, (0, 0), 0, -1⟩,
         ⟨1, ⟨[⟨20, ""⟩, ⟨21, ""⟩], [20, 21], 0⟩, (0, 0), 0, -1⟩]
        0 ⟨-1, 0, 5⟩ 0) 1).map (fun w => w.dragSeqAccepted) = some 5 := by
  decide

/-- Claim C4: the per-window acceptance flag is a single slot:
`mark_drag_seq_accepted` overwrites any previously marked value,
`was_drag_seq_accepted s` is true exactly when `s` is the most recently
marked value, and marking the same sequence number twice is idempotent,
so checking acceptance after a duplicate mark yields the same true result
as after the first mark. -/
theorem drag_seq_accepted_single_slot (w : Window) (s1 s2 s : Int) :
    (mark_drag_seq_accepted (mark_drag_seq_accepted w s1) s2).dragSeqAccepted = s2
  ∧ (was_drag_seq_accepted (mark_drag_seq_accepted w s2) s = true ↔ s = s2)
  ∧ mark_drag_seq_accepted (mark_drag_seq_accepted w s) s = mark_drag_seq_accepted w s
  ∧ was_drag_seq_accepted (mark_drag_seq_accepted (mark_drag_seq_accepted w s) s) s
      = was_drag_seq_accepted (mark_drag_seq_accepted w s) s
  ∧ was_drag_seq_accepted (mark_drag_seq_accepted w s) s = true := by
  refine ⟨rfl, ?_, rfl, rfl, ?_⟩
  · simp only [was_drag_seq_accepted, mark_drag_seq_accepted, beq_iff_eq]
    exact eq_comm
  · simp only [was_drag_seq_accepted, mark_drag_seq_accepted, beq_iff_eq]

/-- Claim C9: transfer-protocol operations fed a stale or invalid tab index
are complete no-ops: `receive_tab_from` whose source index does not
reference a web view in the source strip returns with both windows
untouched, and `moveTab` with `from_index` outside `[0, count)` leaves the
strip unchanged.  (Both are total functions here, so no exception can
escape.) -/
theorem stale_index_noop (reg : List Window) (destId srcId : Nat)
    (srcIdx dstIdx : Int) (src : Window) (tw : TabWidget) (f t : Int)
    (hsrc : getWin reg srcId = some src)
    (hv : src.tw.web_view srcIdx = none)
    (hf : f < 0 ∨ (tw.count : Int) ≤ f) :
    receive_tab_from reg destId srcId srcIdx dstIdx = reg
  ∧ tw.moveTab f t = tw := by
  constructor
  · unfold receive_tab_from
    rw [hsrc]
    simp only [hv]
  · by_cases hft : f = t
    · simp [TabWidget.moveTab, hft]
    · simp only [TabWidget.moveTab, if_neg hft, if_pos hf]

/-- Claim C9 witness: a two-window registry where the payload's source tab
index 5 is stale, and a three-tab strip asked to move from index 9. -/
theorem stale_index_noop_witness :
    (getWin [(⟨0, ⟨[⟨10, ""⟩], [10], 0⟩, (0, 0), 0, -1⟩ : Window),
             ⟨1, ⟨[⟨20, ""⟩], [20], 0⟩, (0, 0), 0, -1⟩] 1
        = some ⟨1, ⟨[⟨20, ""⟩], [20], 0⟩, (0, 0), 0, -1⟩
      ∧ TabWidget.web_view ⟨[⟨20, ""⟩], [20], 0⟩ 5 = none
      ∧ ((9 : Int) < 0 ∨ (TabWidget.count ⟨[⟨10, ""⟩, ⟨11, ""⟩, ⟨12, ""⟩], [10, 11, 12], 0⟩ : Int) ≤ 9))
  ∧ (receive_tab_from [(⟨0, ⟨[⟨10, ""⟩], [10], 0⟩, (0, 0), 0, -1⟩ : Window),
        ⟨1, ⟨[⟨20, ""⟩], [20], 0⟩, (0, 0), 0, -1⟩] 0 1 5 0
      = [⟨0, ⟨[⟨10, ""⟩], [10], 0⟩, (0, 0), 0, -1⟩,
         ⟨1, ⟨[⟨20, ""⟩], [20], 0⟩, (0, 0), 0, -1⟩]
    ∧ TabWidget.moveTab ⟨[⟨10, ""⟩, ⟨11, ""⟩, ⟨12, ""⟩], [10, 11, 12], 0⟩ 9 0
      = ⟨[⟨10, ""⟩, ⟨11, ""⟩, ⟨12, ""⟩], [10, 11, 12], 0⟩) :=
  ⟨⟨by decide, by decide, by decide⟩,
   stale_index_noop
     [⟨0, ⟨[⟨10, ""⟩], [10], 0⟩, (0, 0), 0, -1⟩, ⟨1, ⟨[⟨20, ""⟩], [20], 0⟩, (0, 0), 0, -1⟩]
     0 1 5 0
     ⟨1, ⟨[⟨20, ""⟩], [20], 0⟩, (0, 0), 0, -1⟩
     ⟨[⟨10, ""⟩, ⟨11, ""⟩, ⟨12, ""⟩], [10, 11, 12], 0⟩
     9 0 (by decide) (by decide) (by decide)⟩

/-- Claim C10: with `n > 0` tabs and a valid current index `c`, `next_tab`
sets the current index to `(c + 1) mod n`, `previous_tab` sets it to
`(c + n - 1) mod n`, and `previous_tab` right after `next_tab` restores the
original current index. -/
theorem next_prev_tab_mod (tw : TabWidget)
    (hcur : 0 ≤ tw.cur ∧ tw.cur < (tw.count : Int)) :
    (tw.next_tab).cur = (tw.cur + 1) % (tw.count : Int)
  ∧ (tw.previous_tab).cur = (tw.cur + (tw.count : Int) - 1) % (tw.count : Int)
  ∧ ((tw.next_tab).previous_tab).cur = tw.cur := by
  obtain ⟨h0, h1⟩ := hcur
  have hnext : tw.next_tab
      = { tw with cur := if tw.cur + 1 = (tw.count : Int) then 0 else tw.cur + 1 } := by
    simp only [TabWidget.next_tab, TabWidget.currentIndex]
    by_cases he : tw.cur + 1 = (tw.count : Int)
    · rw [if_pos he, setCurrentIndex_of_valid tw 0 le_rfl (by omega)]
    · rw [if_neg he, setCurrentIndex_of_valid tw (tw.cur + 1) (by omega) (by omega)]
  have hprev : ∀ s : TabWidget, 0 ≤ s.cur → s.cur < (s.count : Int) →
      s.previous_tab
        = { s with cur := if s.cur - 1 < 0 then (s.count : Int) - 1 else s.cur - 1 } := by
    intro s hs0 hs1
    simp only [TabWidget.previous_tab, TabWidget.currentIndex]
    by_cases he : s.cur - 1 < 0
    · rw [if_pos he, setCurrentIndex_of_valid s ((s.count : Int) - 1) (by omega) (by omega)]
    · rw [if_neg he, setCurrentIndex_of_valid s (s.cur - 1) (by omega) (by omega)]
  refine ⟨?_, ?_, ?_⟩
  · rw [hnext]
    show (if tw.cur + 1 = (tw.count : Int) then 0 else tw.cur + 1)
      = (tw.cur + 1) % (tw.count : Int)
    by_cases he : tw.cur + 1 = (tw.count : Int)
    · rw [if_pos he, he, Int.emod_self]
    · rw [if_neg he, Int.emod_eq_of_lt (by omega) (by omega)]
  · rw [hprev tw h0 h1]
    show (if tw.cur - 1 < 0 then (tw.count : Int) - 1 else tw.cur - 1)
      = (tw.cur + (tw.count : Int) - 1) % (tw.count : Int)
    by_cases he : tw.cur - 1 < 0
    · rw [if_pos he]
      have hrw : tw.cur + (tw.count : Int) - 1 = (tw.count : Int) - 1 := by omega
      rw [hrw, Int.emod_eq_of_lt (by omega) (by omega)]
    · rw [if_neg he]
      have hrw : tw.cur + (tw.count : Int) - 1 = (tw.cur - 1) + (tw.count : Int) * 1 := by
        ring
      rw [hrw, Int.add_mul_emod_self_left, Int.emod_eq_of_lt (by omega) (by omega)]
  · rw [hnext]
    by_cases he : tw.cur + 1 = (tw.count : Int)
    · rw [if_pos he]
      rw [hprev { tw with cur := 0 } (le_refl 0)
        (show (0 : Int) < (tw.count : Int) by omega)]
      show (if (0 : Int) - 1 < 0 then (tw.count : Int) - 1 else (0 : Int) - 1) = tw.cur
      rw [if_pos (show (0 : Int) - 1 < 0 by omega)]
      omega
    · rw [if_neg he]
      rw [hprev { tw with cur := tw.cur + 1 }
        (show (0 : Int) ≤ tw.cur + 1 by omega)
        (show tw.cur + 1 < (tw.count : Int) by omega)]
      show (if tw.cur + 1 - 1 < 0 then (tw.count : Int) - 1 else tw.cur + 1 - 1) = tw.cur
      rw [if_neg (show ¬(tw.cur + 1 - 1 < 0) by omega)]
      omega

/-- Claim C1: a cross-window merge with a live source tab conserves the
total tab count over the two windows, clamps the requested destination
index into `[0, destination count at insertion time]` (insertion happens at
exactly the clamped position), and the transferred view is the destination
strip's current tab afterwards. -/
theorem receive_tab_from_merge_spec (reg : List Window) (destId srcId : Nat)
    (srcIdx dstIdx : Int) (dest src : Window) (v : Nat)
    (hnd : (reg.map Window.id).Nodup)
    (hne : destId ≠ srcId)
    (hdest : getWin reg destId = some dest)
    (hsrc : getWin reg srcId = some src)
    (hv : src.tw.web_view srcIdx = some v) :
    regTabCount (receive_tab_from reg destId srcId srcIdx dstIdx) srcId
      + regTabCount (receive_tab_from reg destId srcId srcIdx dstIdx) destId
      = regTabCount reg srcId + regTabCount reg destId
  ∧ (getWin (receive_tab_from reg destId srcId srcIdx dstIdx) destId).map (fun w => w.tw.stack)
      = some (listInsertAt dest.tw.stack (max 0 (min dstIdx (dest.tw.count : Int))).toNat v)
  ∧ (getWin (receive_tab_from reg destId srcId srcIdx dstIdx) destId).map
        (fun w => w.tw.widget w.tw.cur)
      = some (some v) := by
  rw [receive_tab_from_eq reg destId srcId srcIdx dstIdx dest src v hne hdest hsrc hv]
  set k : Int := max 0 (min dstIdx (dest.tw.count : Int)) with hkdef
  set reg3 : List Window := setWin (setWin (setWin reg srcId
      (fun w => { w with tw := w.tw.removeTab srcIdx })) destId
      (fun w => { w with tw := w.tw.insertTab k v (src.tw.tabText srcIdx) })) destId
      (fun w => { w with tw := w.tw.setCurrentIndex k }) with hreg3def
  have hk0 : (0 : Int) ≤ k := by
    rw [hkdef]
    exact le_max_left 0 _
  have hk1 : k ≤ (dest.tw.count : Int) := by
    rw [hkdef]
    exact max_le (Int.natCast_nonneg _) (min_le_right _ _)
  have hk1s : k ≤ (dest.tw.stack.length : Int) := hk1
  have hg3d : getWin reg3 destId
      = some { dest with tw := (dest.tw.insertTab k v (src.tw.tabText srcIdx)).setCurrentIndex k } := by
    rw [hreg3def,
      getWin_setWin_self _ destId (fun w => { w with tw := w.tw.setCurrentIndex k }) (fun w => rfl),
      getWin_setWin_self _ destId
        (fun w => { w with tw := w.tw.insertTab k v (src.tw.tabText srcIdx) }) (fun w => rfl),
      getWin_setWin_ne _ srcId destId
        (fun w => { w with tw := w.tw.removeTab srcIdx }) (fun w => rfl) hne,
      hdest]
    rfl
  have hg3s : getWin reg3 srcId = some { src with tw := src.tw.removeTab srcIdx } := by
    rw [hreg3def,
      getWin_setWin_ne _ destId srcId (fun w => { w with tw := w.tw.setCurrentIndex k })
        (fun w => rfl) (Ne.symm hne),
      getWin_setWin_ne _ destId srcId
        (fun w => { w with tw := w.tw.insertTab k v (src.tw.tabText srcIdx) })
        (fun w => rfl) (Ne.symm hne),
      getWin_setWin_self _ srcId (fun w => { w with tw := w.tw.removeTab srcIdx }) (fun w => rfl),
      hsrc]
    rfl
  have hins_stack : (dest.tw.insertTab k v (src.tw.tabText srcIdx)).stack
      = listInsertAt dest.tw.stack k.toNat v := by
    have hclamp : clampInsert dest.tw.stack.length k = k.toNat := by
      unfold clampInsert
      rw [if_pos ⟨hk0, hk1s⟩]
    show listInsertAt dest.tw.stack (clampInsert dest.tw.stack.length k) v = _
    rw [hclamp]
  have hcount_after : ((dest.tw.insertTab k v (src.tw.tabText srcIdx)).setCurrentIndex k).count
      = dest.tw.count + 1 := by
    unfold TabWidget.count
    rw [setCurrentIndex_stack, hins_stack, length_listInsertAt]
  have hdest_tw : (dest.tw.insertTab k v (src.tw.tabText srcIdx)).setCurrentIndex k
      = { dest.tw.insertTab k v (src.tw.tabText srcIdx) with cur := k } := by
    apply setCurrentIndex_of_valid
    · exact hk0
    · show k < ((dest.tw.insertTab k v (src.tw.tabText srcIdx)).stack.length : Int)
      rw [hins_stack, length_listInsertAt]
      push_cast
      omega
  have hstack_final : ((dest.tw.insertTab k v (src.tw.tabText srcIdx)).setCurrentIndex k).stack
      = listInsertAt dest.tw.stack k.toNat v := by
    rw [setCurrentIndex_stack]
    exact hins_stack
  have hwidget_final : ((dest.tw.insertTab k v (src.tw.tabText srcIdx)).setCurrentIndex k).widget
      (((dest.tw.insertTab k v (src.tw.tabText srcIdx)).setCurrentIndex k).cur) = some v := by
    rw [hdest_tw]
    show TabWidget.widget { dest.tw.insertTab k v (src.tw.tabText srcIdx) with cur := k } k = some v
    unfold TabWidget.widget
    have hstk : ({ dest.tw.insertTab k v (src.tw.tabText srcIdx) with cur := k } : TabWidget).stack
        = listInsertAt dest.tw.stack k.toNat v := hins_stack
    rw [hstk, length_listInsertAt,
      if_pos (show 0 ≤ k ∧ k < ((dest.tw.stack.length + 1 : Nat) : Int) by push_cast; omega)]
    exact getElem?_listInsertAt_self _ _ _ (by omega)
  have hsrc_count : (src.tw.removeTab srcIdx).count = src.tw.count - 1 :=
    removeTab_count_of_web_view src.tw srcIdx v hv
  have hsrc_pos : 0 < src.tw.count := count_pos_of_web_view src.tw srcIdx v hv
  have hrc_s_reg : regTabCount reg srcId = src.tw.count := by
    unfold regTabCount
    rw [hsrc]
    rfl
  have hrc_d_reg : regTabCount reg destId = dest.tw.count := by
    unfold regTabCount
    rw [hdest]
    rfl
  by_cases hz : (src.tw.removeTab srcIdx).count = 0
  · rw [if_pos hz]
    have hids3 : reg3.map Window.id = reg.map Window.id := by
      rw [hreg3def,
        map_setWin _ destId (fun w => { w with tw := w.tw.setCurrentIndex k })
          Window.id (fun w => rfl),
        map_setWin _ destId (fun w => { w with tw := w.tw.insertTab k v (src.tw.tabText srcIdx) })
          Window.id (fun w => rfl),
        map_setWin _ srcId (fun w => { w with tw := w.tw.removeTab srcIdx })
          Window.id (fun w => rfl)]
    have hclose_s : getWin (closeWindow reg3 srcId) srcId = none :=
      getWin_eq_none_of_notMem (notMem_id_closeWindow (by rw [hids3]; exact hnd))
    have hclose_d : getWin (closeWindow reg3 srcId) destId = getWin reg3 destId :=
      getWin_closeWindow_ne reg3 srcId destId hne
    refine ⟨?_, ?_, ?_⟩
    · have hrc_s : regTabCount (closeWindow reg3 srcId) srcId = 0 := by
        unfold regTabCount
        rw [hclose_s]
        rfl
      have hrc_d : regTabCount (closeWindow reg3 srcId) destId = dest.tw.count + 1 := by
        unfold regTabCount
        rw [hclose_d, hg3d]
        simp only [Option.map_some', Option.getD_some]
        exact hcount_after
      rw [hrc_s, hrc_d, hrc_s_reg, hrc_d_reg]
      omega
    · rw [hclose_d, hg3d]
      simp only [Option.map_some']
      exact congrArg some hstack_final
    · rw [hclose_d, hg3d]
      simp only [Option.map_some']
      exact congrArg some hwidget_final
  · rw [if_neg hz]
    refine ⟨?_, ?_, ?_⟩
    · have hrc_s : regTabCount reg3 srcId = src.tw.count - 1 := by
        unfold regTabCount
        rw [hg3s]
        simp only [Option.map_some', Option.getD_some]
        exact hsrc_count
      have hrc_d : regTabCount reg3 destId = dest.tw.count + 1 := by
        unfold regTabCount
        rw [hg3d]
        simp only [Option.map_some', Option.getD_some]
        exact hcount_after
      rw [hrc_s, hrc_d, hrc_s_reg, hrc_d_reg]
      omega
    · rw [hg3d]
      simp only [Option.map_some']
      exact congrArg some hstack_final
    · rw [hg3d]
      simp only [Option.map_some']
      exact congrArg some hwidget_final

/-- Claim C1 witness: pulling the only tab of window 1 into a two-tab
window 0 with requested destination index 7 (clamped to 2). -/
theorem receive_tab_from_merge_spec_witness :
    (List.Nodup (List.map Window.id
        [⟨0, ⟨[⟨10, ""⟩, ⟨11, ""⟩], [10, 11], 0⟩, (0, 0), 0, -1⟩,
         ⟨1, ⟨[⟨20, ""⟩], [20], 0⟩, (0, 0), 0, -1⟩])
      ∧ (0 : Nat) ≠ 1
      ∧ getWin [⟨0, ⟨[⟨10, ""⟩, ⟨11, ""⟩], [10, 11], 0⟩, (0, 0), 0, -1⟩,
                ⟨1, ⟨[⟨20, ""⟩], [20], 0⟩, (0, 0), 0, -1⟩] 0
          = some ⟨0, ⟨[⟨10, ""⟩, ⟨11, ""⟩], [10, 11], 0⟩, (0, 0), 0, -1⟩
      ∧ getWin [⟨0, ⟨[⟨10, ""⟩, ⟨11, ""⟩], [10, 11], 0⟩, (0, 0), 0, -1⟩,
                ⟨1, ⟨[⟨20, ""⟩], [20], 0⟩, (0, 0), 0, -1⟩] 1
          = some ⟨1, ⟨[⟨20, ""⟩], [20], 0⟩, (0, 0), 0, -1⟩
      ∧ TabWidget.web_view ⟨[⟨20, ""⟩], [20], 0⟩ 0 = some 20)
  ∧ (regTabCount (receive_tab_from
        [⟨0, ⟨[⟨10, ""⟩, ⟨11, ""⟩], [10, 11], 0⟩, (0, 0), 0, -1⟩,
         ⟨1, ⟨[⟨20, ""⟩], [20], 0⟩, (0, 0), 0, -1⟩] 0 1 0 7) 1
      + regTabCount (receive_tab_from
        [⟨0, ⟨[⟨10, ""⟩, ⟨11, ""⟩], [10, 11], 0⟩, (0, 0), 0, -1⟩,
         ⟨1, ⟨[⟨20, ""⟩], [20], 0⟩, (0, 0), 0, -1⟩] 0 1 0 7) 0
      = regTabCount [⟨0, ⟨[⟨10, ""⟩, ⟨11, ""⟩], [10, 11], 0⟩, (0, 0), 0, -1⟩,
         ⟨1, ⟨[⟨20, ""⟩], [20], 0⟩, (0, 0), 0, -1⟩] 1
        + regTabCount [⟨0, ⟨[⟨10, ""⟩, ⟨11, ""⟩], [10, 11], 0⟩, (0, 0), 0, -1⟩,
         ⟨1, ⟨[⟨20, ""⟩], [20], 0⟩, (0, 0), 0, -1⟩] 0
    ∧ (getWin (receive_tab_from
        [⟨0, ⟨[⟨10, ""⟩, ⟨11, ""⟩], [10, 11], 0⟩, (0, 0), 0, -1⟩,
         ⟨1, ⟨[⟨20, ""⟩], [20], 0⟩, (0, 0), 0, -1⟩] 0 1 0 7) 0).map (fun w => w.tw.stack)
      = some (listInsertAt [10, 11]
          (max 0 (min 7 ((TabWidget.count ⟨[⟨10, ""⟩, ⟨11, ""⟩], [10, 11], 0⟩ : Nat) : Int))).toNat 20)
    ∧ (getWin (receive_tab_from
        [⟨0, ⟨[⟨10, ""⟩, ⟨11, ""⟩], [10, 11], 0⟩, (0, 0), 0, -1⟩,
         ⟨1, ⟨[⟨20, ""⟩], [20], 0⟩, (0, 0), 0, -1⟩] 0 1 0 7) 0).map
          (fun w => w.tw.widget w.tw.cur)
      = some (some 20)) :=
  ⟨⟨by decide, by decide, by decide, by decide, by decide⟩,
   receive_tab_from_merge_spec
     [⟨0, ⟨[⟨10, ""⟩, ⟨11, ""⟩], [10, 11], 0⟩, (0, 0), 0, -1⟩,
      ⟨1, ⟨[⟨20, ""⟩], [20], 0⟩, (0, 0), 0, -1⟩]
     0 1 0 7
     ⟨0, ⟨[⟨10, ""⟩, ⟨11, ""⟩], [10, 11], 0⟩, (0, 0), 0, -1⟩
     ⟨1, ⟨[⟨20, ""⟩], [20], 0⟩, (0, 0), 0, -1⟩
     20 (by decide) (by decide) (by decide) (by decide) (by decide)⟩

/-- Claim C5: a cross-window transfer that removes the last tab of the
source window closes that window, and closing removes it from the
process-wide window list, so it is no longer in the registry. -/
theorem receive_tab_from_closes_empty_source (reg : List Window)
    (destId srcId : Nat) (srcIdx dstIdx : Int) (dest src : Window) (v : Nat)
    (hnd : (reg.map Window.id).Nodup)
    (hne : destId ≠ srcId)
    (hdest : getWin reg destId = some dest)
    (hsrc : getWin reg srcId = some src)
    (hv : src.tw.web_view srcIdx = some v)
    (h1 : src.tw.count = 1) :
    srcId ∉ (receive_tab_from reg destId srcId srcIdx dstIdx).map Window.id := by
  rw [receive_tab_from_eq reg destId srcId srcIdx dstIdx dest src v hne hdest hsrc hv]
  have hz : (src.tw.removeTab srcIdx).count = 0 := by
    rw [removeTab_count_of_web_view src.tw srcIdx v hv, h1]
  rw [if_pos hz]
  have hids3 : (setWin (setWin (setWin reg srcId
      (fun w => { w with tw := w.tw.removeTab srcIdx })) destId
      (fun w => { w with tw := w.tw.insertTab (max 0 (min dstIdx (dest.tw.count : Int))) v (src.tw.tabText srcIdx) })) destId
      (fun w => { w with tw := w.tw.setCurrentIndex (max 0 (min dstIdx (dest.tw.count : Int))) })).map Window.id
      = reg.map Window.id := by
    rw [map_setWin _ destId (fun w => { w with tw := w.tw.setCurrentIndex (max 0 (min dstIdx (dest.tw.count : Int))) })
          Window.id (fun w => rfl),
        map_setWin _ destId (fun w => { w with tw := w.tw.insertTab (max 0 (min dstIdx (dest.tw.count : Int))) v (src.tw.tabText srcIdx) })
          Window.id (fun w => rfl),
        map_setWin _ srcId (fun w => { w with tw := w.tw.removeTab srcIdx })
          Window.id (fun w => rfl)]
  exact notMem_id_closeWindow (by rw [hids3]; exact hnd)

/-- Claim C5 witness: a one-tab source window 1 transferring its only tab
into window 0; afterwards window 1 is gone from the registry. -/
theorem receive_tab_from_closes_empty_source_witness :
    (List.Nodup (List.map Window.id
        [⟨0, ⟨[⟨10, ""⟩], [10], 0⟩, (0, 0), 0, -1⟩,
         ⟨1, ⟨[⟨20, ""⟩], [20], 0⟩, (0, 0), 0, -1⟩])
      ∧ (0 : Nat) ≠ 1
      ∧ getWin [⟨0, ⟨[⟨10, ""⟩], [10], 0⟩, (0, 0), 0, -1⟩,
                ⟨1, ⟨[⟨20, ""⟩], [20], 0⟩, (0, 0), 0, -1⟩] 0
          = some ⟨0, ⟨[⟨10, ""⟩], [10], 0⟩, (0, 0), 0, -1⟩
      ∧ getWin [⟨0, ⟨[⟨10, ""⟩], [10], 0⟩, (0, 0), 0, -1⟩,
                ⟨1, ⟨[⟨20, ""⟩], [20], 0⟩, (0, 0), 0, -1⟩] 1
          = some ⟨1, ⟨[⟨20, ""⟩], [20], 0⟩, (0, 0), 0, -1⟩
      ∧ TabWidget.web_view ⟨[⟨20, ""⟩], [20], 0⟩ 0 = some 20
      ∧ TabWidget.count ⟨[⟨20, ""⟩], [20], 0⟩ = 1)
  ∧ 1 ∉ (receive_tab_from
        [⟨0, ⟨[⟨10, ""⟩], [10], 0⟩, (0, 0), 0, -1⟩,
         ⟨1, ⟨[⟨20, ""⟩], [20], 0⟩, (0, 0), 0, -1⟩] 0 1 0 0).map Window.id :=
  ⟨⟨by decide, by decide, by decide, by decide, by decide, by decide⟩,
   receive_tab_from_closes_empty_source
     [⟨0, ⟨[⟨10, ""⟩], [10], 0⟩, (0, 0), 0, -1⟩,
      ⟨1, ⟨[⟨20, ""⟩], [20], 0⟩, (0, 0), 0, -1⟩]
     0 1 0 0
     ⟨0, ⟨[⟨10, ""⟩], [10], 0⟩, (0, 0), 0, -1⟩
     ⟨1, ⟨[⟨20, ""⟩], [20], 0⟩, (0, 0), 0, -1⟩
     20 (by decide) (by decide) (by decide) (by decide) (by decide) (by decide)⟩

/-- Claim C2: a drag that ends with no drop target having marked its
sequence number accepted on the originating window detaches: with exactly
one tab, the window itself is moved near the release pointer (fixed
offset), every strip is unchanged and no window is created; with two or
more tabs, the tab at the source index is removed (others keeping their
order) and one brand-new window is appended holding exactly that tab,
positioned at the fixed offset from the release pointer. -/
theorem dragEnd_unaccepted_detach (reg : List Window) (wid freshId : Nat)
    (dragIdx seq : Int) (rp : Int × Int) (w : Window) (v : Nat)
    (hw : getWin reg wid = some w)
    (hna : w.dragSeqAccepted ≠ seq)
    (hfresh : freshId ∉ reg.map Window.id)
    (hnd : w.tw.stack.Nodup)
    (hv : w.tw.web_view dragIdx = some v) :
    (w.tw.count = 1 →
       ∃ reg2, dragEnd reg wid dragIdx seq rp freshId = some reg2
         ∧ reg2.map (fun x => x.tw) = reg.map (fun x => x.tw)
         ∧ reg2.length = reg.length
         ∧ (getWin reg2 wid).map Window.pos = some (rp.1 - 60, rp.2 - 20))
  ∧ (2 ≤ w.tw.count →
       ∃ reg2, dragEnd reg wid dragIdx seq rp freshId = some reg2
         ∧ reg2.length = reg.length + 1
         ∧ (getWin reg2 wid).map (fun x => x.tw.stack)
             = some (w.tw.stack.eraseIdx dragIdx.toNat)
         ∧ (getWin reg2 freshId).map (fun x => x.tw.stack) = some [v]
         ∧ (getWin reg2 freshId).map Window.pos = some (rp.1 - 60, rp.2 - 20)) := by
  have hb : was_drag_seq_accepted w seq = false := by
    unfold was_drag_seq_accepted
    exact beq_eq_false_iff_ne.mpr hna
  have hdrag : dragEnd reg wid dragIdx seq rp freshId
      = detach_tab_to_new_window reg wid dragIdx rp freshId := by
    unfold dragEnd
    rw [hw]
    show (if was_drag_seq_accepted w seq = true then some reg
          else detach_tab_to_new_window reg wid dragIdx rp freshId) = _
    rw [hb, if_neg (by simp)]
  refine ⟨?_, ?_⟩
  · intro hc1
    have hdet : detach_tab_to_new_window reg wid dragIdx rp freshId
        = some (setWin reg wid (fun x => { x with pos := (rp.1 - 60, rp.2 - 20) })) := by
      unfold detach_tab_to_new_window
      rw [hw]
      show (if w.tw.count = 1
            then some (setWin reg wid (fun x => { x with pos := (rp.1 - 60, rp.2 - 20) }))
            else _) = _
      rw [if_pos hc1]
    refine ⟨setWin reg wid (fun x => { x with pos := (rp.1 - 60, rp.2 - 20) }),
      by rw [hdrag, hdet], ?_, ?_, ?_⟩
    · exact map_setWin reg wid (fun x => { x with pos := (rp.1 - 60, rp.2 - 20) })
        (fun x => x.tw) (fun x => rfl)
    · exact length_setWin reg wid (fun x => { x with pos := (rp.1 - 60, rp.2 - 20) })
    · rw [getWin_setWin_self reg wid (fun x => { x with pos := (rp.1 - 60, rp.2 - 20) })
        (fun x => rfl), hw]
      rfl
  · intro hc2
    have hc1 : ¬(w.tw.count = 1) := by omega
    have hdet : detach_tab_to_new_window reg wid dragIdx rp freshId
        = some (setWin (setWin ((setWin reg wid
            (fun x => { x with tw := x.tw.removeTab dragIdx }))
            ++ [⟨freshId, ⟨[], [], -1⟩, (0, 0), 0, -1⟩]) freshId
            (fun x => { x with tw := x.tw.addTab v (w.tw.tabText dragIdx) })) freshId
            (fun x => { x with pos := (rp.1 - 60, rp.2 - 20) })) := by
      unfold detach_tab_to_new_window
      rw [hw]
      simp only [hc1, if_false, hv]
    have hwidne : wid ≠ freshId := by
      intro e
      exact hfresh (e ▸ mem_id_of_getWin_some hw)
    obtain ⟨⟨hr0, hr1⟩, hval⟩ := web_view_inv w.tw dragIdx v hv
    have h1 : getWin (setWin reg wid (fun x => { x with tw := x.tw.removeTab dragIdx })) wid
        = some { w with tw := w.tw.removeTab dragIdx } := by
      rw [getWin_setWin_self reg wid
        (fun x => { x with tw := x.tw.removeTab dragIdx }) (fun x => rfl), hw]
      rfl
    have hgwid : getWin (setWin (setWin ((setWin reg wid
          (fun x => { x with tw := x.tw.removeTab dragIdx }))
          ++ [⟨freshId, ⟨[], [], -1⟩, (0, 0), 0, -1⟩]) freshId
          (fun x => { x with tw := x.tw.addTab v (w.tw.tabText dragIdx) })) freshId
          (fun x => { x with pos := (rp.1 - 60, rp.2 - 20) })) wid
        = some { w with tw := w.tw.removeTab dragIdx } := by
      rw [getWin_setWin_ne _ freshId wid
            (fun x => { x with pos := (rp.1 - 60, rp.2 - 20) }) (fun x => rfl) hwidne,
          getWin_setWin_ne _ freshId wid
            (fun x => { x with tw := x.tw.addTab v (w.tw.tabText dragIdx) })
            (fun x => rfl) hwidne]
      exact getWin_append_left _ h1
    have hids1 : (setWin reg wid
          (fun x => { x with tw := x.tw.removeTab dragIdx })).map Window.id
        = reg.map Window.id :=
      map_setWin reg wid (fun x => { x with tw := x.tw.removeTab dragIdx })
        Window.id (fun x => rfl)
    have hchild : getWin [(⟨freshId, ⟨[], [], -1⟩, (0, 0), 0, -1⟩ : Window)] freshId
        = some ⟨freshId, ⟨[], [], -1⟩, (0, 0), 0, -1⟩ :=
      List.find?_cons_of_pos _ (by simp)
    have hgfresh : getWin (setWin (setWin ((setWin reg wid
          (fun x => { x with tw := x.tw.removeTab dragIdx }))
          ++ [⟨freshId, ⟨[], [], -1⟩, (0, 0), 0, -1⟩]) freshId
          (fun x => { x with tw := x.tw.addTab v (w.tw.tabText dragIdx) })) freshId
          (fun x => { x with pos := (rp.1 - 60, rp.2 - 20) })) freshId
        = some { (⟨freshId, ⟨[], [], -1⟩, (0, 0), 0, -1⟩ : Window) with
            tw := (TabWidget.mk [] [] (-1)).addTab v (w.tw.tabText dragIdx),
            pos := (rp.1 - 60, rp.2 - 20) } := by
      rw [getWin_setWin_self _ freshId
            (fun x => { x with pos := (rp.1 - 60, rp.2 - 20) }) (fun x => rfl),
          getWin_setWin_self _ freshId
            (fun x => { x with tw := x.tw.addTab v (w.tw.tabText dragIdx) })
            (fun x => rfl),
          getWin_append_right _ (by rw [hids1]; exact hfresh),
          hchild]
      rfl
    refine ⟨_, by rw [hdrag, hdet], ?_, ?_, ?_, ?_⟩
    · rw [length_setWin, length_setWin, List.length_append, length_setWin]
      rfl
    · rw [hgwid]
      have : (w.tw.removeTab dragIdx).stack = w.tw.stack.eraseIdx dragIdx.toNat := by
        rw [removeTab_stack_of_web_view w.tw dragIdx v hv]
        exact erase_eq_eraseIdx_of_nodup _ _ _ hnd hval
      rw [Option.map_some']
      exact congrArg some this
    · rw [hgfresh]
      rfl
    · rw [hgfresh]
      rfl

/-- Claim C2 witness: a three-tab window, drag of tab 1 ending unaccepted
at pointer (100, 200), fresh window id 7. -/
theorem dragEnd_unaccepted_detach_witness :
    (getWin [(⟨0, ⟨[⟨10, ""⟩, ⟨11, ""⟩, ⟨12, ""⟩], [10, 11, 12], 0⟩, (5, 5), 3, -1⟩ : Window)] 0
        = some ⟨0, ⟨[⟨10, ""⟩, ⟨11, ""⟩, ⟨12, ""⟩], [10, 11, 12], 0⟩, (5, 5), 3, -1⟩
      ∧ (-1 : Int) ≠ 3
      ∧ (7 : Nat) ∉ List.map Window.id
          [(⟨0, ⟨[⟨10, ""⟩, ⟨11, ""⟩, ⟨12, ""⟩], [10, 11, 12], 0⟩, (5, 5), 3, -1⟩ : Window)]
      ∧ List.Nodup [10, 11, 12]
      ∧ TabWidget.web_view ⟨[⟨10, ""⟩, ⟨11, ""⟩, ⟨12, ""⟩], [10, 11, 12], 0⟩ 1 = some 11)
  ∧ ((TabWidget.count ⟨[⟨10, ""⟩, ⟨11, ""⟩, ⟨12, ""⟩], [10, 11, 12], 0⟩ = 1 →
       ∃ reg2, dragEnd
           [(⟨0, ⟨[⟨10, ""⟩, ⟨11, ""⟩, ⟨12, ""⟩], [10, 11, 12], 0⟩, (5, 5), 3, -1⟩ : Window)]
           0 1 3 (100, 200) 7 = some reg2
         ∧ reg2.map (fun x => x.tw)
             = List.map (fun x => x.tw)
                 [(⟨0, ⟨[⟨10, ""⟩, ⟨11, ""⟩, ⟨12, ""⟩], [10, 11, 12], 0⟩, (5, 5), 3, -1⟩ : Window)]
         ∧ reg2.length = List.length
             [(⟨0, ⟨[⟨10, ""⟩, ⟨11, ""⟩, ⟨12, ""⟩], [10, 11, 12], 0⟩, (5, 5), 3, -1⟩ : Window)]
         ∧ (getWin reg2 0).map Window.pos = some ((100 : Int) - 60, (200 : Int) - 20))
    ∧ (2 ≤ TabWidget.count ⟨[⟨10, ""⟩, ⟨11, ""⟩, ⟨12, ""⟩], [10, 11, 12], 0⟩ →
       ∃ reg2, dragEnd
           [(⟨0, ⟨[⟨10, ""⟩, ⟨11, ""⟩, ⟨12, ""⟩], [10, 11, 12], 0⟩, (5, 5), 3, -1⟩ : Window)]
           0 1 3 (100, 200) 7 = some reg2
         ∧ reg2.length = List.length
             [(⟨0, ⟨[⟨10, ""⟩, ⟨11, ""⟩, ⟨12, ""⟩], [10, 11, 12], 0⟩, (5, 5), 3, -1⟩ : Window)] + 1
         ∧ (getWin reg2 0).map (fun x => x.tw.stack)
             = some (List.eraseIdx [10, 11, 12] ((1 : Int).toNat))
         ∧ (getWin reg2 7).map (fun x => x.tw.stack) = some [11]
         ∧ (getWin reg2 7).map Window.pos = some ((100 : Int) - 60, (200 : Int) - 20))) :=
  ⟨⟨by decide, by decide, by decide, by decide, by decide⟩,
   dragEnd_unaccepted_detach
     [⟨0, ⟨[⟨10, ""⟩, ⟨11, ""⟩, ⟨12, ""⟩], [10, 11, 12], 0⟩, (5, 5), 3, -1⟩]
     0 7 1 3 (100, 200)
     ⟨0, ⟨[⟨10, ""⟩, ⟨11, ""⟩, ⟨12, ""⟩], [10, 11, 12], 0⟩, (5, 5), 3, -1⟩
     11 (by decide) (by decide) (by decide) (by decide) (by decide)⟩

/-- Claim C6: a valid move is a permutation keeping exactly the same
handles, relocating only the moved handle — erasing it from the result
gives the original sequence with the source position deleted, so all other
handles keep their relative order — and a move with equal indices changes
nothing. -/
theorem moveTab_permutation (tw : TabWidget) (f t : Int) (v : Nat)
    (hnd : tw.stack.Nodup) (hv : tw.widget f = some v) :
    ((tw.moveTab f t).stack).Perm tw.stack
  ∧ ((tw.moveTab f t).stack).erase v = tw.stack.eraseIdx f.toNat
  ∧ tw.moveTab f f = tw := by
  have hcond : (0 ≤ f ∧ f < (tw.stack.length : Int)) ∧ tw.stack[f.toNat]? = some v := by
    unfold TabWidget.widget at hv
    by_cases h : 0 ≤ f ∧ f < (tw.stack.length : Int)
    · rw [if_pos h] at hv
      exact ⟨h, hv⟩
    · rw [if_neg h] at hv
      exact absurd hv (by simp)
  obtain ⟨⟨hf0, hf1⟩, hg⟩ := hcond
  have hmem : v ∈ tw.stack := mem_of_getElem?_some hg
  have herase : tw.stack.erase v = tw.stack.eraseIdx f.toNat :=
    erase_eq_eraseIdx_of_nodup _ _ _ hnd hg
  have hnotmem : v ∉ tw.stack.erase v := by
    intro hmm
    exact absurd ((List.Nodup.mem_erase_iff hnd).mp hmm).1 (by simp)
  have hnoop : tw.moveTab f f = tw := by simp [TabWidget.moveTab]
  by_cases hft : f = t
  · subst hft
    exact ⟨by rw [hnoop], by rw [hnoop]; exact herase, hnoop⟩
  · have hnc : ¬(f < 0 ∨ (tw.count : Int) ≤ f) := by
      push_neg
      exact ⟨hf0, hf1⟩
    have hmove : (tw.moveTab f t).stack
        = listInsertAt (tw.stack.erase v)
            (clampInsert (tw.stack.erase v).length
              (if 0 < (tw.stack.erase v).length
               then max 0 (min t ((tw.stack.erase v).length : Int)) else 0)) v := by
      simp only [TabWidget.moveTab, if_neg hft, if_neg hnc, hv, setCurrentIndex_stack]
    refine ⟨?_, ?_, hnoop⟩
    · rw [hmove]
      exact (perm_listInsertAt _ _ _).trans (List.perm_cons_erase hmem).symm
    · rw [hmove, erase_listInsertAt _ _ _ hnotmem]
      exact herase

/-- Claim C6 witness: moving tab 0 of a three-tab strip to position 2. -/
theorem moveTab_permutation_witness :
    (List.Nodup [10, 11, 12]
      ∧ TabWidget.widget ⟨[⟨10, ""⟩, ⟨11, ""⟩, ⟨12, ""⟩], [10, 11, 12], 0⟩ 0 = some 10)
  ∧ (((TabWidget.moveTab ⟨[⟨10, ""⟩, ⟨11, ""⟩, ⟨12, ""⟩], [10, 11, 12], 0⟩ 0 2).stack).Perm
        [10, 11, 12]
    ∧ ((TabWidget.moveTab ⟨[⟨10, ""⟩, ⟨11, ""⟩, ⟨12, ""⟩], [10, 11, 12], 0⟩ 0 2).stack).erase 10
        = List.eraseIdx [10, 11, 12] ((0 : Int).toNat)
    ∧ TabWidget.moveTab ⟨[⟨10, ""⟩, ⟨11, ""⟩, ⟨12, ""⟩], [10, 11, 12], 0⟩ 0 0
        = ⟨[⟨10, ""⟩, ⟨11, ""⟩, ⟨12, ""⟩], [10, 11, 12], 0⟩) :=
  ⟨⟨by decide, by decide⟩,
   moveTab_permutation ⟨[⟨10, ""⟩, ⟨11, ""⟩, ⟨12, ""⟩], [10, 11, 12], 0⟩ 0 2 10
     (by decide) (by decide)⟩

theorem insertTab_synced (tw : TabWidget) (i : Int) (w : Nat) (title : String)
    (hs : synced tw) (hnd : tw.stack.Nodup) (hw : w ∉ tw.stack) :
    synced (tw.insertTab i w title) ∧ (tw.insertTab i w title).stack.Nodup := by
  obtain ⟨hlen, hmap⟩ := hs
  have hstack : (tw.insertTab i w title).stack
      = listInsertAt tw.stack (clampInsert tw.stack.length i) w := rfl
  have hbar : (tw.insertTab i w title).bar
      = listInsertAt tw.bar (clampInsert tw.bar.length i) ⟨w, title⟩ := rfl
  have hmap2 : ((tw.insertTab i w title).bar).map Tab.owner
      = (tw.insertTab i w title).stack := by
    rw [hbar, hstack, map_listInsertAt, hmap, hlen]
  refine ⟨⟨?_, hmap2⟩, ?_⟩
  · rw [← hmap2, List.length_map]
  · rw [hstack]
    exact ((perm_listInsertAt _ _ _).symm).nodup (List.nodup_cons.mpr ⟨hw, hnd⟩)

theorem removeTab_synced (tw : TabWidget) (i : Int)
    (hs : synced tw) (hnd : tw.stack.Nodup) :
    synced (tw.removeTab i) ∧ (tw.removeTab i).stack.Nodup := by
  obtain ⟨hlen, hmap⟩ := hs
  by_cases h : 0 ≤ i ∧ i < (tw.stack.length : Int)
  · have hlt : i.toNat < tw.stack.length := by omega
    obtain ⟨val, hval⟩ : ∃ val, tw.stack[i.toNat]? = some val :=
      ⟨_, List.getElem?_eq_getElem hlt⟩
    have hwid : tw.widget i = some val := by
      unfold TabWidget.widget
      rw [if_pos h]
      exact hval
    have hstack : (tw.removeTab i).stack = tw.stack.erase val := by
      simp only [TabWidget.removeTab, hwid]
    have hbar : (tw.removeTab i).bar = tw.bar.eraseIdx i.toNat := by
      simp only [TabWidget.removeTab, TabWidget.barRemoveAt]
      rw [if_pos (show 0 ≤ i ∧ i < (tw.bar.length : Int) by omega)]
    have hmap2 : ((tw.removeTab i).bar).map Tab.owner = (tw.removeTab i).stack := by
      rw [hbar, hstack, map_eraseIdx, hmap,
        erase_eq_eraseIdx_of_nodup tw.stack i.toNat val hnd hval]
    refine ⟨⟨?_, hmap2⟩, ?_⟩
    · rw [← hmap2, List.length_map]
    · rw [hstack]
      exact (List.erase_sublist val tw.stack).nodup hnd
  · have hwid : tw.widget i = none := by
      unfold TabWidget.widget
      rw [if_neg h]
    have hstack : (tw.removeTab i).stack = tw.stack := by
      simp only [TabWidget.removeTab, hwid]
    have hbar : (tw.removeTab i).bar = tw.bar := by
      simp only [TabWidget.removeTab, TabWidget.barRemoveAt]
      rw [if_neg (show ¬(0 ≤ i ∧ i < (tw.bar.length : Int)) by omega)]
    refine ⟨⟨?_, ?_⟩, ?_⟩
    · rw [hbar, hstack]
      exact hlen
    · rw [hbar, hstack]
      exact hmap
    · rw [hstack]
      exact hnd

theorem moveTab_synced (tw : TabWidget) (f t : Int)
    (hs : synced tw) (hnd : tw.stack.Nodup) :
    synced (tw.moveTab f t) ∧ (tw.moveTab f t).stack.Nodup := by
  obtain ⟨hlen, hmap⟩ := hs
  by_cases hft : f = t
  · have hno : tw.moveTab f t = tw := by simp [TabWidget.moveTab, hft]
    rw [hno]
    exact ⟨⟨hlen, hmap⟩, hnd⟩
  by_cases hc : f < 0 ∨ (tw.count : Int) ≤ f
  · have hno : tw.moveTab f t = tw := by
      simp only [TabWidget.moveTab, if_neg hft, if_pos hc]
    rw [hno]
    exact ⟨⟨hlen, hmap⟩, hnd⟩
  · simp only [TabWidget.count] at hc
    have hrange : 0 ≤ f ∧ f < (tw.stack.length : Int) := by omega
    have hlt : f.toNat < tw.stack.length := by omega
    obtain ⟨val, hval⟩ : ∃ val, tw.stack[f.toNat]? = some val :=
      ⟨_, List.getElem?_eq_getElem hlt⟩
    have hwid : tw.widget f = some val := by
      unfold TabWidget.widget
      rw [if_pos hrange]
      exact hval
    have hmem : val ∈ tw.stack := mem_of_getElem?_some hval
    have heidx : tw.stack.erase val = tw.stack.eraseIdx f.toNat :=
      erase_eq_eraseIdx_of_nodup _ _ _ hnd hval
    have hcnd : ¬(f < 0 ∨ (tw.count : Int) ≤ f) := by
      simp only [TabWidget.count]
      omega
    have hstack : (tw.moveTab f t).stack
        = listInsertAt (tw.stack.erase val)
            (clampInsert (tw.stack.erase val).length
              (if 0 < (tw.stack.erase val).length
               then max 0 (min t ((tw.stack.erase val).length : Int)) else 0)) val := by
      simp only [TabWidget.moveTab, if_neg hft, if_neg hcnd, hwid, setCurrentIndex_stack]
    have hbar : (tw.moveTab f t).bar
        = listInsertAt (tw.bar.eraseIdx f.toNat)
            (clampInsert (tw.bar.eraseIdx f.toNat).length
              (if 0 < (tw.stack.erase val).length
               then max 0 (min t ((tw.stack.erase val).length : Int)) else 0))
            ⟨val, tw.tabText f⟩ := by
      have hb1 : TabWidget.barRemoveAt tw.bar tw.cur f
          = (tw.bar.eraseIdx f.toNat,
             if (tw.bar.eraseIdx f.toNat).length = 0 then -1
             else if f < tw.cur then tw.cur - 1
             else if f = tw.cur then min tw.cur (((tw.bar.eraseIdx f.toNat).length : Int) - 1)
             else tw.cur) := by
        unfold TabWidget.barRemoveAt
        rw [if_pos (show 0 ≤ f ∧ f < (tw.bar.length : Int) by omega)]
      simp only [TabWidget.moveTab, if_neg hft, if_neg hcnd, hwid, setCurrentIndex_bar,
        hb1, TabWidget.barInsertAt]
    have hlene : (tw.bar.eraseIdx f.toNat).length = (tw.stack.erase val).length := by
      rw [heidx, ← hmap, ← map_eraseIdx, List.length_map]
    have hmap2 : ((tw.moveTab f t).bar).map Tab.owner = (tw.moveTab f t).stack := by
      rw [hbar, hstack, map_listInsertAt, map_eraseIdx, hmap, ← heidx, hlene]
    refine ⟨⟨?_, hmap2⟩, ?_⟩
    · rw [← hmap2, List.length_map]
    · rw [hstack]
      have hnm : val ∉ tw.stack.erase val := by
        intro hmm
        exact absurd ((List.Nodup.mem_erase_iff hnd).mp hmm).1 (by simp)
      have hmnd : (tw.stack.erase val).Nodup :=
        (List.erase_sublist val tw.stack).nodup hnd
      exact ((perm_listInsertAt _ _ _).symm).nodup (List.nodup_cons.mpr ⟨hnm, hmnd⟩)

/-- Claim C8: each tab-strip operation (addTab, insertTab, removeTab,
moveTab) preserves the bar/stack invariant: afterwards the tab-entry
sequence and the content-view sequence have the same length and are
index-aligned (the view each tab entry was created for sits at the same
position in the stack).  Distinctness of the stacked view objects is also
preserved. -/
theorem tab_ops_preserve_alignment (tw : TabWidget) (w : Nat) (title : String)
    (i f t : Int) (hs : synced tw) (hnd : tw.stack.Nodup) (hw : w ∉ tw.stack) :
    (synced (tw.addTab w title) ∧ (tw.addTab w title).stack.Nodup)
  ∧ (synced (tw.insertTab i w title) ∧ (tw.insertTab i w title).stack.Nodup)
  ∧ (synced (tw.removeTab i) ∧ (tw.removeTab i).stack.Nodup)
  ∧ (synced (tw.moveTab f t) ∧ (tw.moveTab f t).stack.Nodup) := by
  refine ⟨?_, ?_, ?_, ?_⟩
  · rw [addTab_eq_insertTab]
    exact insertTab_synced tw (tw.bar.length : Int) w title hs hnd hw
  · exact insertTab_synced tw i w title hs hnd hw
  · exact removeTab_synced tw i hs hnd
  · exact moveTab_synced tw f t hs hnd

/-- Claim C8 witness: a synced two-tab strip, inserting fresh view 12 at
index 1, removing index 0, and moving 0 to 1. -/
theorem tab_ops_preserve_alignment_witness :
    (synced ⟨[⟨10, ""⟩, ⟨11, ""⟩], [10, 11], 0⟩
      ∧ List.Nodup [10, 11] ∧ 12 ∉ [10, 11])
  ∧ ((synced (TabWidget.addTab ⟨[⟨10, ""⟩, ⟨11, ""⟩], [10, 11], 0⟩ 12 "")
        ∧ (TabWidget.addTab ⟨[⟨10, ""⟩, ⟨11, ""⟩], [10, 11], 0⟩ 12 "").stack.Nodup)
    ∧ (synced (TabWidget.insertTab ⟨[⟨10, ""⟩, ⟨11, ""⟩], [10, 11], 0⟩ 1 12 "")
        ∧ (TabWidget.insertTab ⟨[⟨10, ""⟩, ⟨11, ""⟩], [10, 11], 0⟩ 1 12 "").stack.Nodup)
    ∧ (synced (TabWidget.removeTab ⟨[⟨10, ""⟩, ⟨11, ""⟩], [10, 11], 0⟩ 1)
        ∧ (TabWidget.removeTab ⟨[⟨10, ""⟩, ⟨11, ""⟩], [10, 11], 0⟩ 1).stack.Nodup)
    ∧ (synced (TabWidget.moveTab ⟨[⟨10, ""⟩, ⟨11, ""⟩], [10, 11], 0⟩ 0 1)
        ∧ (TabWidget.moveTab ⟨[⟨10, ""⟩, ⟨11, ""⟩], [10, 11], 0⟩ 0 1).stack.Nodup)) :=
  ⟨⟨by decide, by decide, by decide⟩,
   tab_ops_preserve_alignment ⟨[⟨10, ""⟩, ⟨11, ""⟩], [10, 11], 0⟩ 12 "" 1 0 1
     (by decide) (by decide) (by decide)⟩

/-- Claim C10 witness: a three-tab strip with current index 2. -/
theorem next_prev_tab_mod_witness :
    ((0 : Int) ≤ 2 ∧ (2 : Int) < (TabWidget.count ⟨[⟨10, ""⟩, ⟨11, ""⟩, ⟨12, ""⟩], [10, 11, 12], 2⟩ : Int))
  ∧ ((TabWidget.next_tab ⟨[⟨10, ""⟩, ⟨11, ""⟩, ⟨12, ""⟩], [10, 11, 12], 2⟩).cur
        = ((2 : Int) + 1) % (TabWidget.count ⟨[⟨10, ""⟩, ⟨11, ""⟩, ⟨12, ""⟩], [10, 11, 12], 2⟩ : Int)
    ∧ (TabWidget.previous_tab ⟨[⟨10, ""⟩, ⟨11, ""⟩, ⟨12, ""⟩], [10, 11, 12], 2⟩).cur
        = ((2 : Int) + (TabWidget.count ⟨[⟨10, ""⟩, ⟨11, ""⟩, ⟨12, ""⟩], [10, 11, 12], 2⟩ : Int) - 1)
            % (TabWidget.count ⟨[⟨10, ""⟩, ⟨11, ""⟩, ⟨12, ""⟩], [10, 11, 12], 2⟩ : Int)
    ∧ ((TabWidget.next_tab ⟨[⟨10, ""⟩, ⟨11, ""⟩, ⟨12, ""⟩], [10, 11, 12], 2⟩).previous_tab).cur = 2) :=
  ⟨⟨by decide, by decide⟩,
   next_prev_tab_mod ⟨[⟨10, ""⟩, ⟨11, ""⟩, ⟨12, ""⟩], [10, 11, 12], 2⟩ ⟨by decide, by decide⟩⟩

end WADS
